import Mathlib

/-!
Verification of the transcript chunking, retrieval and context-assembly
pipeline of the youtube-chat-backend service (src/index.js, with the
near-identical duplicate src/unnamed/part_000).

JavaScript strings are embedded as `List Char`; JS numbers appearing as
times and lengths are embedded as `Nat` (all values produced by the code
are non-negative integers), cast to `Int` at the comparison sites where
the source subtracts (`targetSeconds - window` can be negative in JS).
-/

set_option linter.unusedVariables false

/-- Lowercasing of a JS string (String.prototype.toLowerCase), per char. -/
def lowerL (s : List Char) : List Char :=
  s.map Char.toLower

/-- Model of String.prototype.split(sep) for a one-character separator:
splitting on every occurrence, keeping empty pieces, as JS does. -/
def splitOnCh (sep : Char) : List Char → List (List Char)
  | [] => [[]]
  | c :: rest =>
      let r := splitOnCh sep rest
      if c == sep then [] :: r
      else (c :: r.headD []) :: r.tail

/-- Model of the JS array join with a separator string. -/
def joinSep (sep : List Char) : List (List Char) → List Char
  | [] => []
  | [x] => x
  | x :: y :: rest => x ++ sep ++ joinSep sep (y :: rest)

/-- Does the list start with the given pattern (String.prototype.startsWith)? -/
def listStartsWith : List Char → List Char → Bool
  | _, [] => true
  | [], _ :: _ => false
  | c :: cs, d :: ds => c == d && listStartsWith cs ds

/-- Model of String.prototype.includes: the needle occurs contiguously in
the haystack (the empty needle always occurs, as in JS). -/
def listContainsSub (hay needle : List Char) : Bool :=
  match hay with
  | [] => needle.isEmpty
  | _ :: rest => listStartsWith hay needle || listContainsSub rest needle

/-- Decimal digit to character, as JS Number.prototype.toString renders it. -/
def digitChar : Nat → Char
  | 0 => '0'
  | 1 => '1'
  | 2 => '2'
  | 3 => '3'
  | 4 => '4'
  | 5 => '5'
  | 6 => '6'
  | 7 => '7'
  | 8 => '8'
  | 9 => '9'
  | _ => '*'

/-- Decimal rendering of a natural number, fuelled so that the recursion is
structural; the fuel `n + 1` always suffices, as parseDigits_natDigitsAux
shows by only assuming `n < fuel`. -/
def natDigitsAux : Nat → Nat → List Char
  | 0, _ => []
  | fuel + 1, n =>
      if n < 10 then [digitChar n]
      else natDigitsAux fuel (n / 10) ++ [digitChar (n % 10)]

/-- Model of Number.prototype.toString for a non-negative integer. -/
def natDigits (n : Nat) : List Char :=
  natDigitsAux (n + 1) n

/-- Model of parseInt applied to a string of decimal digits (the only
strings the source feeds it: components of a regex-matched timestamp and
of formatDuration output). -/
def parseDigits (l : List Char) : Nat :=
  l.foldl (fun acc c => acc * 10 + (c.toNat - 48)) 0

/-- Model of String.prototype.padStart(2, the zero character). -/
def pad2 (l : List Char) : List Char :=
  if l.length < 2 then List.replicate (2 - l.length) '0' ++ l else l

/-- Model of String.prototype.trim. -/
def trimL (s : List Char) : List Char :=
  ((s.dropWhile Char.isWhitespace).reverse.dropWhile Char.isWhitespace).reverse

/-- Model of String.prototype.replace with a global literal pattern:
scan left to right, replace each non-overlapping occurrence, never rescan
replacement text. Fuelled on the input length (which always suffices). -/
def replaceAllAux (pat rep : List Char) : Nat → List Char → List Char
  | 0, s => s
  | fuel + 1, s =>
      match s with
      | [] => []
      | c :: rest =>
          if !pat.isEmpty && listStartsWith (c :: rest) pat then
            rep ++ replaceAllAux pat rep fuel ((c :: rest).drop pat.length)
          else c :: replaceAllAux pat rep fuel rest

/-- Global literal replacement over a JS string. -/
def replaceAll (pat rep s : List Char) : List Char :=
  replaceAllAux pat rep s.length s

/-- One timestamped caption line, as the pipeline consumes it
(fields text / offset / duration of src/index.js). -/
structure TranscriptItem where
  text : List Char
  offset : Nat
  duration : Nat
deriving DecidableEq

/-- Fallback item used to translate the JS indexing currentChunk[0] /
currentChunk[length-1]; the source only builds chunks from non-empty
groups, so it is never consulted. -/
def dItem : TranscriptItem :=
  { text := [], offset := 0, duration := 0 }

/-- One transcript chunk (chunkTranscript's record literal). -/
structure Chunk where
  text : List Char
  startTime : Nat
  endTime : Nat
  items : List TranscriptItem
deriving DecidableEq

/-- Entry of analysis.mainTopics. -/
structure MainTopic where
  topic : List Char
  timestamp : List Char
  description : List Char
deriving DecidableEq

/-- Entry of analysis.keyConcepts. -/
structure KeyConcept where
  concept : List Char
  definition : List Char
deriving DecidableEq

/-- Entry of analysis.timeline. -/
structure TimelineEvent where
  time : List Char
  event : List Char
deriving DecidableEq

/-- The structured analysis object returned by analyzeTranscript. -/
structure Analysis where
  summary : List Char
  mainTopics : List MainTopic
  keyConcepts : List KeyConcept
  timeline : List TimelineEvent
deriving DecidableEq

/-- The metadata record built by the transcript endpoint. -/
structure Metadata where
  title : List Char
  duration : Nat
  author : List Char
deriving DecidableEq

/-- Closing a pending group of items into a chunk: the record literal
pushed by chunkTranscript. JS reads currentChunk[0] and
currentChunk[currentChunk.length - 1]; the group is never empty there. -/
def chunkOf (cur : List TranscriptItem) : Chunk :=
  { text := joinSep " ".toList (cur.map (fun i => i.text))
    startTime := (cur.headD dItem).offset
    endTime := (cur.getLastD dItem).offset + (cur.getLastD dItem).duration
    items := cur }

/-- The loop body of chunkTranscript (src/index.js lines 115-149): state is
(accumulated chunks, current group, current character length, total
duration); MAX_CHUNK_LENGTH is 1500. `item.duration || 0` is the identity
here because durations are total in the embedding. -/
def chunkLoop : List TranscriptItem → List Chunk → List TranscriptItem → Nat → Nat →
    List Chunk × Nat
  | [], chunks, cur, _, total =>
      if cur.length > 0 then (chunks ++ [chunkOf cur], total) else (chunks, total)
  | item :: rest, chunks, cur, len, total =>
      let cur' := cur ++ [item]
      let len' := len + item.text.length
      let total' := total + item.duration
      if len' ≥ 1500 then chunkLoop rest (chunks ++ [chunkOf cur']) [] 0 total'
      else chunkLoop rest chunks cur' len' total'

/-- chunkTranscript: returns the chunk list and the total duration. -/
def chunkTranscript (transcript : List TranscriptItem) : List Chunk × Nat :=
  chunkLoop transcript [] [] 0 0

/-- formatDuration (src/index.js lines 103-112): seconds to M:SS, or
H:MM:SS once an hour component is present. -/
def formatDuration (seconds : Nat) : List Char :=
  let hours := seconds / 3600
  let minutes := (seconds % 3600) / 60
  let remainingSeconds := seconds % 60
  if hours > 0 then
    natDigits hours ++ ':' :: (pad2 (natDigits minutes) ++ ':' :: pad2 (natDigits remainingSeconds))
  else
    natDigits minutes ++ ':' :: pad2 (natDigits remainingSeconds)

/-!
The timestamp regex of getRelevantChunks. The source scans the query with
the JS pattern consisting of an optional group of one or two digits plus a
colon, followed by a group that is either one-or-two digits, colon, two
digits, or a bare one-or-two digit number. The functions below reproduce
JS leftmost-match semantics with the engine's backtracking preferences:
the optional group is preferred present, within it two digits are
preferred over one, and the first alternative of the second group is
preferred over the second, each with greedy digit counts.
-/

/-- Second regex group, first alternative with a two-digit first component:
digit digit colon digit digit. -/
def tryTsA : List Char → Option (List Char)
  | c1 :: c2 :: c3 :: c4 :: c5 :: _ =>
      if c1.isDigit && c2.isDigit && (c3 == ':') && c4.isDigit && c5.isDigit then
        some [c1, c2, c3, c4, c5]
      else none
  | _ => none

/-- Second regex group, first alternative with a one-digit first component:
digit colon digit digit. -/
def tryTsB : List Char → Option (List Char)
  | c1 :: c2 :: c3 :: c4 :: _ =>
      if c1.isDigit && (c2 == ':') && c3.isDigit && c4.isDigit then
        some [c1, c2, c3, c4]
      else none
  | _ => none

/-- Second regex group, second alternative, two digits. -/
def tryTsC : List Char → Option (List Char)
  | c1 :: c2 :: _ =>
      if c1.isDigit && c2.isDigit then some [c1, c2] else none
  | _ => none

/-- Second regex group, second alternative, one digit. -/
def tryTsD : List Char → Option (List Char)
  | c1 :: _ => if c1.isDigit then some [c1] else none
  | _ => none

/-- The whole second regex group, alternatives in backtracking order. -/
def tryTsG2 (s : List Char) : Option (List Char) :=
  ((tryTsA s).orElse fun _ => (tryTsB s).orElse fun _ =>
    (tryTsC s).orElse fun _ => tryTsD s)

/-- Attempt of the whole regex at a fixed position: optional first group
with two digits, then with one digit, then absent, each followed by the
second group on the remainder. -/
def tryTsFull (s : List Char) : Option (List Char) :=
  (match s with
   | c1 :: c2 :: c3 :: rest =>
       if c1.isDigit && c2.isDigit && (c3 == ':') then
         (tryTsG2 rest).map (fun m => c1 :: c2 :: c3 :: m)
       else none
   | _ => none).orElse fun _ =>
  ((match s with
    | c1 :: c2 :: rest =>
        if c1.isDigit && (c2 == ':') then
          (tryTsG2 rest).map (fun m => c1 :: c2 :: m)
        else none
    | _ => none).orElse fun _ => tryTsG2 s)

/-- Model of query.match(timeRegex): the leftmost match, or none. -/
def findTimeMatch : List Char → Option (List Char)
  | [] => none
  | c :: rest =>
      match tryTsFull (c :: rest) with
      | some m => some m
      | none => findTimeMatch rest

/-- Parsing a matched timestamp into seconds (src/index.js line 159):
split on colon and left-fold acc * 60 + parseInt(component). -/
def parseSecondsL (l : List Char) : Nat :=
  (splitOnCh ':' l).foldl (fun acc part => acc * 60 + parseDigits part) 0

/-- The window test applied to one chunk inside getRelevantChunks: the
chunk start or the chunk end lies within 300 of the target, inclusive.
Comparisons are over the integers, as targetSeconds - 300 can be negative
in the source. -/
def inWindow (targetSeconds : Nat) (chunk : Chunk) : Bool :=
  let t : Int := targetSeconds
  (decide ((chunk.startTime : Int) ≥ t - 300) && decide ((chunk.startTime : Int) ≤ t + 300)) ||
  (decide ((chunk.endTime : Int) ≥ t - 300) && decide ((chunk.endTime : Int) ≤ t + 300))

/-- The final strategy of getRelevantChunks (src/index.js lines 192-197):
keep chunks whose lowercased text contains some query word longer than
three characters. -/
def lexicalFallback (chunks : List Chunk) (queryLower : List Char) : List Chunk :=
  chunks.filter (fun chunk =>
    let chunkText := lowerL chunk.text
    let words := (splitOnCh ' ' queryLower).filter (fun w => w.length > 3)
    words.any (fun word => listContainsSub chunkText word))

/-- getRelevantChunks (src/index.js lines 152-198). The matchedConcept
binding reproduces the source, which computes it and never reads it. -/
def getRelevantChunks (chunks : List Chunk) (query : List Char) (analysis : Analysis) :
    List Chunk :=
  match findTimeMatch query with
  | some timestamp =>
      chunks.filter (inWindow (parseSecondsL timestamp))
  | none =>
      let queryLower := lowerL query
      let topics := analysis.mainTopics.map (fun t => lowerL t.topic)
      let concepts := analysis.keyConcepts.map (fun c => lowerL c.concept)
      let matchedTopic := topics.find? (fun t => listContainsSub queryLower t)
      let matchedConcept := concepts.find? (fun c => listContainsSub queryLower c)
      match matchedTopic with
      | some mt =>
          match analysis.mainTopics.find? (fun t => lowerL t.topic == mt) with
          | some topic =>
              if topic.timestamp.isEmpty then lexicalFallback chunks queryLower
              else chunks.filter (inWindow (parseSecondsL topic.timestamp))
          | none => lexicalFallback chunks queryLower
      | none => lexicalFallback chunks queryLower

/-- Topic selection of createChatContext: topics whose lowercased string
contains, or is contained in, the lowercased query; first three. -/
def relevantTopicsSel (query : List Char) (analysis : Analysis) : List MainTopic :=
  (analysis.mainTopics.filter (fun t =>
    listContainsSub (lowerL t.topic) (lowerL query) ||
    listContainsSub (lowerL query) (lowerL t.topic))).take 3

/-- Concept selection of createChatContext under the same rule. -/
def relevantConceptsSel (query : List Char) (analysis : Analysis) : List KeyConcept :=
  (analysis.keyConcepts.filter (fun c =>
    listContainsSub (lowerL c.concept) (lowerL query) ||
    listContainsSub (lowerL query) (lowerL c.concept))).take 3

/-- One line of the topics block of createChatContext. -/
def topicLine (t : MainTopic) : List Char :=
  "[".toList ++ t.timestamp ++ "] ".toList ++ t.topic ++ ": ".toList ++ t.description

/-- One line of the concepts block of createChatContext. -/
def conceptLine (c : KeyConcept) : List Char :=
  c.concept ++ ": ".toList ++ c.definition

/-- One transcript section of createChatContext. -/
def chunkSection (chunk : Chunk) : List Char :=
  "[".toList ++ formatDuration chunk.startTime ++ " - ".toList ++
    formatDuration chunk.endTime ++ "]\n".toList ++ chunk.text

/-- A conditional block of the template: header plus newline-joined lines
when there are entries, the empty string otherwise. -/
def blockWith (header : List Char) (lines : List (List Char)) : List Char :=
  if lines.length > 0 then header ++ joinSep "\n".toList lines else []

/-- createChatContext (src/index.js lines 201-242). The template literals
are reproduced piecewise; the language test is `language === 'ms'`. -/
def createChatContext (query : List Char) (metadata : Metadata) (analysis : Analysis)
    (relevantChunks : List Chunk) (language : List Char) : List Char :=
  let relevantTopics := relevantTopicsSel query analysis
  let relevantConcepts := relevantConceptsSel query analysis
  if language == "ms".toList then
    "Video: \"".toList ++ metadata.title ++ "\" (".toList ++
      formatDuration metadata.duration ++ ")\n\n".toList ++
    blockWith "Topik Berkaitan:\n".toList (relevantTopics.map topicLine) ++
    "\n\n".toList ++
    blockWith "Konsep Penting:\n".toList (relevantConcepts.map conceptLine) ++
    "\n\n".toList ++
    "Bahagian transkrip yang berkaitan:".toList ++ "\n".toList ++
    joinSep "\n\n".toList (relevantChunks.map chunkSection) ++
    "\n\nSoalan: ".toList ++ query
  else
    "Video: \"".toList ++ metadata.title ++ "\" (".toList ++
      formatDuration metadata.duration ++ ")\n\n".toList ++
    blockWith "Relevant Topics:\n".toList (relevantTopics.map topicLine) ++
    "\n\n".toList ++
    blockWith "Relevant Concepts:\n".toList (relevantConcepts.map conceptLine) ++
    "\n\n".toList ++
    "Relevant transcript sections:".toList ++ "\n".toList ++
    joinSep "\n\n".toList (relevantChunks.map chunkSection) ++
    "\n\nQuestion: ".toList ++ query

/-- One text node of the caption XML, after the external DOM parse. The
start and dur fields hold the numeric value parseFloat yields from the
attribute (absent attribute modelled as none, which the source defaults to
zero); the embedding covers the integral-valued attributes the claims
exercise. -/
structure CaptionNode where
  start : Option Nat
  dur : Option Nat
  content : List Char
deriving DecidableEq

/-- The entity decoding chain of parseYouTubeCaption. -/
def decodeEntities (s : List Char) : List Char :=
  replaceAll "&gt;".toList ">".toList
    (replaceAll "&lt;".toList "<".toList
      (replaceAll "&amp;".toList "&".toList
        (replaceAll "&quot;".toList "\"".toList
          (replaceAll "&#39;".toList [Char.ofNat 39] s))))

/-- parseYouTubeCaption (src/index.js lines 575-602): multiply start and
dur by 1000, default a zero duration to 2000, decode entities and trim the
text, drop empty-text items. -/
def parseYouTubeCaption (nodes : List CaptionNode) : List TranscriptItem :=
  (nodes.map (fun node =>
    let start := (node.start.getD 0) * 1000
    let duration := (node.dur.getD 0) * 1000
    { text := trimL (decodeEntities node.content)
      offset := start
      duration := if duration == 0 then 2000 else duration : TranscriptItem }))
    |>.filter (fun item => item.text.length > 0)

/-- The metadata record built by the transcript endpoint (src/index.js
lines 672-676): duration is the totalDuration that chunkTranscript
accumulated over the fetched transcript. -/
def transcriptMetadata (videoTitle : List Char) (transcriptResult : List TranscriptItem) :
    Metadata :=
  { title := videoTitle
    duration := (chunkTranscript transcriptResult).2
    author := "YouTube Creator".toList }

/-- Value of one entry of the in-memory caches keyed by video id. -/
structure CacheEntry where
  metadata : Metadata
  transcript : List TranscriptItem
  chunks : List Chunk
  language : List Char
  captionType : List Char
deriving DecidableEq

/-- The two in-memory stores of the service. -/
structure ServerState where
  transcriptCache : List (List Char × CacheEntry)
  videoAnalysisCache : List (List Char × Analysis)

/-- Model of Map.prototype.get on an association list. -/
def lookupMap {α : Type} (m : List (List Char × α)) (key : List Char) : Option α :=
  (m.find? (fun p => p.1 == key)).map (fun p => p.2)

/-- Observable outcome of the chat endpoint handler up to its external
LLM collaborator: either an error response with an HTTP status and an
error message, or the chat-completion request it issues, recorded by the
language (which selects the fixed system prompt) and the context prompt
sent as the user message. -/
inductive ChatOutcome where
  | clientError (status : Nat) (error : List Char)
  | llmChat (language : List Char) (userPrompt : List Char)
deriving DecidableEq

/-- The chat endpoint handler (src/index.js lines 727-776) up to the
external LLM call: look both caches up; on a miss in either, answer 400
with the load-first message; otherwise retrieve relevant chunks, build the
context prompt and issue the completion request. -/
def chatHandler (st : ServerState) (message videoId : List Char) : ChatOutcome :=
  match lookupMap st.transcriptCache videoId, lookupMap st.videoAnalysisCache videoId with
  | some cachedData, some analysis =>
      let relevantChunks := getRelevantChunks cachedData.chunks message analysis
      let contextPrompt :=
        createChatContext message cachedData.metadata analysis relevantChunks
          cachedData.language
      ChatOutcome.llmChat cachedData.language contextPrompt
  | some _, none => ChatOutcome.clientError 400
      "Transcript not found. Please load the video first.".toList
  | none, some _ => ChatOutcome.clientError 400
      "Transcript not found. Please load the video first.".toList
  | none, none => ChatOutcome.clientError 400
      "Transcript not found. Please load the video first.".toList

/-- Spec-side predicate, written from the claim's words, for comparison
with the source's inWindow: the chunk's [startTime, endTime] interval
intersects the inclusive window [t - 300, t + 300]. -/
def specWindowIntersects (targetSeconds : Nat) (chunk : Chunk) : Bool :=
  let t : Int := targetSeconds
  decide (max (chunk.startTime : Int) (t - 300) ≤ min (chunk.endTime : Int) (t + 300))

/-- The shape invariant of a produced chunk: non-empty item list, start
time equal to the first item's offset, end time equal to the last item's
offset plus duration. -/
def ChunkShaped (c : Chunk) : Prop :=
  c.items ≠ [] ∧
  c.startTime = (c.items.headD dItem).offset ∧
  c.endTime = (c.items.getLastD dItem).offset + (c.items.getLastD dItem).duration

/-- Analysis object with no topics, concepts or timeline. -/
def emptyAnalysis : Analysis :=
  { summary := [], mainTopics := [], keyConcepts := [], timeline := [] }

/-- Chunk spanning [0, 1000]: it strictly contains the window [300, 900]
around the timestamp 10:00 without either endpoint lying inside it. -/
def cWide : Chunk :=
  { text := "x".toList, startTime := 0, endTime := 1000, items := [] }

/-- Chunk spanning [0, 10], the included example of the claim at t = 0. -/
def cNear : Chunk :=
  { text := "aaa".toList, startTime := 0, endTime := 10, items := [] }

/-- Chunk spanning [400, 410], the excluded example of the claim at t = 0. -/
def cFarChunk : Chunk :=
  { text := "bbb".toList, startTime := 400, endTime := 410, items := [] }

/-- Chunk used by the empty-window examples: its text mentions the
timestamp, so the lexical fallback would have selected it. -/
def cMention : Chunk :=
  { text := "the 50:00 part is great".toList, startTime := 0, endTime := 10, items := [] }

/-- Analysis whose only topic is the string containing the test query. -/
def anaGoodStuff : Analysis :=
  { summary := []
    mainTopics := [{ topic := "good stuff".toList, timestamp := "0:00".toList,
                     description := "d".toList }]
    keyConcepts := []
    timeline := [] }

/-- Chunk near time zero whose text shares no long word with the query
of the one-directional-matching counterexample. -/
def cHello : Chunk :=
  { text := "hello world".toList, startTime := 0, endTime := 10, items := [] }

/-- Analysis with a non-matching topic and a concept that occurs in the
query of the inert-concept claim. -/
def anaBanana : Analysis :=
  { summary := []
    mainTopics := [{ topic := "quantum physics".toList, timestamp := "1:00".toList,
                     description := "d".toList }]
    keyConcepts := [{ concept := "banana".toList, definition := "fruit".toList }]
    timeline := [] }

/-- Chunk whose text contains the query word of the inert-concept claim. -/
def cBanana : Chunk :=
  { text := "banana bread recipe".toList, startTime := 0, endTime := 10, items := [] }

/-- Chunk whose text does not contain that query word. -/
def cCar : Chunk :=
  { text := "car repair".toList, startTime := 0, endTime := 10, items := [] }

/-- Concrete metadata for the context-assembly examples. -/
def metaT : Metadata :=
  { title := "T".toList, duration := 0, author := "A".toList }

/-- Concrete caption node: a cue starting at 0 lasting two seconds. -/
def nodeTwoSeconds : CaptionNode :=
  { start := some 0, dur := some 2, content := "hi there".toList }

/-- Concrete transcript item for the chunk-shape witness. -/
def tHi : TranscriptItem :=
  { text := "hi".toList, offset := 5, duration := 2000 }

/-- The single chunk the chunker produces from that item. -/
def cHi : Chunk := chunkOf [tHi]

/-- Server state with both caches empty. -/
def stEmpty : ServerState :=
  { transcriptCache := [], videoAnalysisCache := [] }

/-!
Helper lemmas about the string-level functions.
-/

theorem listContainsSub_nil_needle (hay : List Char) : listContainsSub hay [] = true := by
  cases hay <;> simp [listContainsSub, listStartsWith]

theorem listStartsWith_self_append (n b : List Char) : listStartsWith (n ++ b) n = true := by
  induction n with
  | nil => cases b <;> rfl
  | cons c n' ih => simp [listStartsWith, ih]

theorem contains_self_append (n b : List Char) : listContainsSub (n ++ b) n = true := by
  cases n with
  | nil => simpa using listContainsSub_nil_needle b
  | cons c n' =>
      have h := listStartsWith_self_append (c :: n') b
      simp [listContainsSub]
      simp at h
      exact Or.inl h

theorem contains_append_right (a b n : List Char) (h : listContainsSub b n = true) :
    listContainsSub (a ++ b) n = true := by
  induction a with
  | nil => simpa using h
  | cons c a' ih =>
      simp [listContainsSub] at ih ⊢
      exact Or.inr ih

theorem splitOnCh_no_sep (sep : Char) (l : List Char) (h : ∀ c ∈ l, ¬(c = sep)) :
    splitOnCh sep l = [l] := by
  induction l with
  | nil => rfl
  | cons c rest ih =>
      have hc : (c == sep) = false := by
        simp only [beq_eq_false_iff_ne, ne_eq]
        exact h c (by simp)
      have hr := ih (fun x hx => h x (by simp [hx]))
      simp [splitOnCh, hc, hr]

theorem splitOnCh_append (sep : Char) (a b : List Char) (h : ∀ c ∈ a, ¬(c = sep)) :
    splitOnCh sep (a ++ sep :: b) = a :: splitOnCh sep b := by
  induction a with
  | nil => simp [splitOnCh]
  | cons c a' ih =>
      have hc : (c == sep) = false := by
        simp only [beq_eq_false_iff_ne, ne_eq]
        exact h c (by simp)
      have hr := ih (fun x hx => h x (by simp [hx]))
      simp [splitOnCh, hc, hr]

theorem digitChar_isDigit (m : Nat) (h : m < 10) : (digitChar m).isDigit = true := by
  interval_cases m <;> decide

theorem digitChar_toNat (m : Nat) (h : m < 10) : (digitChar m).toNat - 48 = m := by
  interval_cases m <;> decide

theorem natDigitsAux_digit (fuel : Nat) :
    ∀ n c, c ∈ natDigitsAux fuel n → c.isDigit = true := by
  induction fuel with
  | zero => intro n c hc; simp [natDigitsAux] at hc
  | succ fuel ih =>
      intro n c hc
      by_cases h10 : n < 10
      · simp [natDigitsAux, h10] at hc
        subst hc
        exact digitChar_isDigit n h10
      · simp [natDigitsAux, h10] at hc
        rcases hc with hc | hc
        · exact ih _ _ hc
        · subst hc
          exact digitChar_isDigit _ (Nat.mod_lt _ (by omega))

theorem mem_natDigits_ne_colon (n : Nat) (c : Char) (hc : c ∈ natDigits n) : ¬(c = ':') := by
  intro h
  subst h
  have := natDigitsAux_digit (n + 1) n _ hc
  exact absurd this (by decide)

theorem mem_pad2_ne_colon (l : List Char) (h : ∀ c ∈ l, ¬(c = ':')) :
    ∀ c ∈ pad2 l, ¬(c = ':') := by
  intro c hc
  unfold pad2 at hc
  split at hc
  · rcases List.mem_append.mp hc with hc | hc
    · have := List.eq_of_mem_replicate hc
      subst this
      decide
    · exact h c hc
  · exact h c hc

theorem foldl_replicate_zero (k : Nat) :
    List.foldl (fun acc c => acc * 10 + (c.toNat - 48)) 0 (List.replicate k '0') = 0 := by
  induction k with
  | zero => rfl
  | succ k ih => simpa [List.replicate_succ, List.foldl_cons] using ih

theorem parseDigits_pad2 (l : List Char) : parseDigits (pad2 l) = parseDigits l := by
  unfold pad2
  split
  · unfold parseDigits
    rw [List.foldl_append, foldl_replicate_zero]
  · rfl

theorem parseDigits_natDigitsAux (fuel : Nat) :
    ∀ n, n < fuel → parseDigits (natDigitsAux fuel n) = n := by
  induction fuel with
  | zero => intro n h; omega
  | succ fuel ih =>
      intro n h
      by_cases h10 : n < 10
      · simp [natDigitsAux, h10, parseDigits, List.foldl_cons, List.foldl_nil]
        exact digitChar_toNat n h10
      · have hdiv : n / 10 < n := Nat.div_lt_self (by omega) (by omega)
        have hih := ih (n / 10) (by omega)
        simp only [natDigitsAux, h10, if_false, ite_false]
        unfold parseDigits at hih ⊢
        rw [List.foldl_append, hih, List.foldl_cons, List.foldl_nil,
          digitChar_toNat _ (Nat.mod_lt _ (by omega))]
        omega

theorem parseDigits_natDigits (n : Nat) : parseDigits (natDigits n) = n :=
  parseDigits_natDigitsAux (n + 1) n (by omega)

theorem splitOnCh_formatDuration_low (s : Nat) (h : s / 3600 = 0) :
    splitOnCh ':' (formatDuration s) =
      [natDigits ((s % 3600) / 60), pad2 (natDigits (s % 60))] := by
  unfold formatDuration
  simp only [h, gt_iff_lt, Nat.lt_irrefl, if_false, ite_false]
  rw [splitOnCh_append ':' _ _ (mem_natDigits_ne_colon _)]
  rw [splitOnCh_no_sep ':' _ (mem_pad2_ne_colon _ (mem_natDigits_ne_colon _))]

theorem splitOnCh_formatDuration_high (s : Nat) (h : 0 < s / 3600) :
    splitOnCh ':' (formatDuration s) =
      [natDigits (s / 3600), pad2 (natDigits ((s % 3600) / 60)), pad2 (natDigits (s % 60))] := by
  unfold formatDuration
  simp only [gt_iff_lt, h, if_true, ite_true]
  rw [splitOnCh_append ':' _ _ (mem_natDigits_ne_colon _)]
  rw [splitOnCh_append ':' _ _ (mem_pad2_ne_colon _ (mem_natDigits_ne_colon _))]
  rw [splitOnCh_no_sep ':' _ (mem_pad2_ne_colon _ (mem_natDigits_ne_colon _))]

/-- C6. For every non-negative integer number of seconds, parsing the
output of formatDuration with the colon-split left-fold acc * 60 + part
recovers the input exactly: the two encodings M:SS (below one hour) and
H:MM:SS agree with the base-60 positional decoding of getRelevantChunks. -/
theorem C6_parse_format_roundtrip (s : Nat) : parseSecondsL (formatDuration s) = s := by
  unfold parseSecondsL
  by_cases h : 0 < s / 3600
  · rw [splitOnCh_formatDuration_high s h]
    simp only [List.foldl_cons, List.foldl_nil]
    rw [parseDigits_natDigits, parseDigits_pad2, parseDigits_pad2,
      parseDigits_natDigits, parseDigits_natDigits]
    omega
  · have h0 : s / 3600 = 0 := by omega
    rw [splitOnCh_formatDuration_low s h0]
    simp only [List.foldl_cons, List.foldl_nil]
    rw [parseDigits_natDigits, parseDigits_pad2, parseDigits_natDigits]
    omega

/-!
Lemmas about the chunking loop.
-/

theorem chunkOf_items (cur : List TranscriptItem) : (chunkOf cur).items = cur := rfl

theorem chunkOf_shaped (cur : List TranscriptItem) (h : cur ≠ []) :
    ChunkShaped (chunkOf cur) :=
  ⟨h, rfl, rfl⟩

theorem chunkLoop_items (rest : List TranscriptItem) :
    ∀ chunks cur len total,
      ((chunkLoop rest chunks cur len total).1.map (fun c => c.items)).flatten
        = (chunks.map (fun c => c.items)).flatten ++ cur ++ rest := by
  induction rest with
  | nil =>
      intro chunks cur len total
      by_cases h : cur.length > 0
      · simp [chunkLoop, h, chunkOf_items]
      · have hc : cur = [] := by
          cases cur with
          | nil => rfl
          | cons x xs => simp at h
        simp [chunkLoop, h, hc]
  | cons item rest ih =>
      intro chunks cur len total
      by_cases h : len + item.text.length ≥ 1500
      · simp only [chunkLoop, h, if_true, ite_true]
        rw [ih]
        simp [chunkOf_items, List.append_assoc]
      · simp only [chunkLoop, h, if_false, ite_false]
        rw [ih]
        simp [List.append_assoc]

theorem chunkLoop_shaped (rest : List TranscriptItem) :
    ∀ chunks cur len total, (∀ c ∈ chunks, ChunkShaped c) →
      ∀ c ∈ (chunkLoop rest chunks cur len total).1, ChunkShaped c := by
  induction rest with
  | nil =>
      intro chunks cur len total hch c hc
      by_cases h : cur.length > 0
      · simp only [chunkLoop, h, if_true, ite_true] at hc
        rcases List.mem_append.mp hc with hc | hc
        · exact hch c hc
        · have : c = chunkOf cur := by simpa using hc
          subst this
          exact chunkOf_shaped cur (List.ne_nil_of_length_pos h)
      · simp only [chunkLoop, h, if_false, ite_false] at hc
        exact hch c hc
  | cons item rest ih =>
      intro chunks cur len total hch c hc
      by_cases h : len + item.text.length ≥ 1500
      · simp only [chunkLoop, h, if_true, ite_true] at hc
        refine ih _ _ _ _ ?_ c hc
        intro c' hc'
        rcases List.mem_append.mp hc' with hc' | hc'
        · exact hch c' hc'
        · have : c' = chunkOf (cur ++ [item]) := by simpa using hc'
          subst this
          exact chunkOf_shaped _ (by simp)
      · simp only [chunkLoop, h, if_false, ite_false] at hc
        exact ih _ _ _ _ hch c hc

theorem chunkLoop_total (rest : List TranscriptItem) :
    ∀ chunks cur len total,
      (chunkLoop rest chunks cur len total).2
        = total + (rest.map (fun i => i.duration)).sum := by
  induction rest with
  | nil =>
      intro chunks cur len total
      by_cases h : cur.length > 0 <;> simp [chunkLoop, h]
  | cons item rest ih =>
      intro chunks cur len total
      by_cases h : len + item.text.length ≥ 1500 <;>
        simp only [chunkLoop, h, if_true, ite_true, if_false, ite_false, List.map_cons,
          List.sum_cons] <;>
        rw [ih] <;> omega

/-- The total duration accumulated by chunkTranscript is the sum of the
item durations, independent of chunk boundaries. -/
theorem chunkTranscript_total (transcript : List TranscriptItem) :
    (chunkTranscript transcript).2 = (transcript.map (fun i => i.duration)).sum := by
  unfold chunkTranscript
  rw [chunkLoop_total]
  simp

/-- C5. Chunking is a lossless partition: concatenating the item sequences
of all chunks that chunkTranscript produces, in order, reproduces the
input item sequence exactly. -/
theorem C5_lossless_partition (transcript : List TranscriptItem) :
    ((chunkTranscript transcript).1.map (fun c => c.items)).flatten = transcript := by
  unfold chunkTranscript
  rw [chunkLoop_items]
  simp

/-- C8. Every chunk the chunker produces from a non-empty transcript has a
non-empty item list, a start time equal to the offset of its first item,
and an end time equal to offset plus duration of its last item. -/
theorem C8_chunk_time_invariant (transcript : List TranscriptItem)
    (h : transcript ≠ []) (c : Chunk) (hc : c ∈ (chunkTranscript transcript).1) :
    c.items ≠ [] ∧
    c.startTime = (c.items.headD dItem).offset ∧
    c.endTime = (c.items.getLastD dItem).offset + (c.items.getLastD dItem).duration :=
  chunkLoop_shaped transcript [] [] 0 0 (by simp) c hc

/-- Witness for C8: the two-second item at offset 5 yields one chunk with
start 5, end 2005 and a singleton item list. -/
theorem C8_witness :
    (([tHi] : List TranscriptItem) ≠ [] ∧ cHi ∈ (chunkTranscript [tHi]).1) ∧
    (cHi.items ≠ [] ∧
     cHi.startTime = (cHi.items.headD dItem).offset ∧
     cHi.endTime = (cHi.items.getLastD dItem).offset + (cHi.items.getLastD dItem).duration) :=
  ⟨by decide, C8_chunk_time_invariant [tHi] (by decide) cHi (by decide)⟩

/-- C1 (amended). Whenever the query contains a timestamp token, the
matcher returns exactly the chunks whose start time or end time lies
within the inclusive window [t - 300, t + 300] around the parsed
timestamp t, for every chunk list and every analysis. -/
theorem C1_timestamp_window (chunks : List Chunk) (query : List Char)
    (analysis : Analysis) (ts : List Char) (h : findTimeMatch query = some ts) :
    getRelevantChunks chunks query analysis
      = chunks.filter (inWindow (parseSecondsL ts)) := by
  unfold getRelevantChunks
  rw [h]

/-- Counterexample to C1 as stated: for the query 10:00 (t = 600, window
[300, 900]) the chunk spanning [0, 1000] intersects the window, yet the
matcher excludes it because neither endpoint lies inside the window. -/
theorem C1_counterexample :
    findTimeMatch ("10:00".toList) = some ("10:00".toList) ∧
    parseSecondsL ("10:00".toList) = 600 ∧
    specWindowIntersects 600 cWide = true ∧
    getRelevantChunks [cWide] ("10:00".toList) emptyAnalysis = [] := by
  decide

/-- Witness for C1: at t = 0 the chunk spanning [0, 10] is selected and
the chunk spanning [400, 410] is not. -/
theorem C1_witness :
    findTimeMatch ("0:00".toList) = some ("0:00".toList) ∧
    getRelevantChunks [cNear, cFarChunk] ("0:00".toList) emptyAnalysis
      = List.filter (inWindow (parseSecondsL ("0:00".toList))) [cNear, cFarChunk] ∧
    List.filter (inWindow (parseSecondsL ("0:00".toList))) [cNear, cFarChunk] = [cNear] :=
  ⟨by decide, C1_timestamp_window [cNear, cFarChunk] _ emptyAnalysis _ (by decide), by decide⟩

/-- C4. When the query carries a timestamp and the window filter selects
no chunk, the matcher returns the empty list for every analysis and every
chunk text: neither the topic strategy nor the lexical fallback runs. -/
theorem C4_timestamp_authoritative (chunks : List Chunk) (query : List Char)
    (analysis : Analysis) (ts : List Char) (h1 : findTimeMatch query = some ts)
    (h2 : chunks.filter (inWindow (parseSecondsL ts)) = []) :
    getRelevantChunks chunks query analysis = [] := by
  unfold getRelevantChunks
  rw [h1]
  exact h2

/-- Witness for C4: query 50:00 against a chunk spanning [0, 10] whose
text mentions 50:00; the window filter is empty, the matcher answers the
empty list, although the lexical fallback would have selected the chunk. -/
theorem C4_witness :
    (findTimeMatch ("50:00".toList) = some ("50:00".toList) ∧
     List.filter (inWindow (parseSecondsL ("50:00".toList))) [cMention] = []) ∧
    getRelevantChunks [cMention] ("50:00".toList) emptyAnalysis = [] ∧
    lexicalFallback [cMention] (lowerL ("50:00".toList)) = [cMention] :=
  ⟨by decide,
   C4_timestamp_authoritative [cMention] ("50:00".toList) emptyAnalysis ("50:00".toList)
     (by decide) (by decide),
   by decide⟩

/-- C3 (amended). Topic and concept matching in the query matcher is
one-directional: a topic fires only when its lowercased string occurs
inside the lowercased query. When no topic string occurs inside the
query, the matcher answers with the lexical fallback, even if the query
occurs inside some topic or concept string. -/
theorem C3_topic_match_one_directional (chunks : List Chunk) (query : List Char)
    (analysis : Analysis) (h1 : findTimeMatch query = none)
    (h2 : (analysis.mainTopics.map (fun t => lowerL t.topic)).find?
        (fun t => listContainsSub (lowerL query) t) = none) :
    getRelevantChunks chunks query analysis = lexicalFallback chunks (lowerL query) := by
  unfold getRelevantChunks
  rw [h1]
  simp only [h2]

/-- Counterexample to C3 as stated: the lowercased query good occurs
inside the topic string good stuff, whose timestamp window would select
the chunk near time zero; the matcher nevertheless ignores the topic and
falls through to the lexical fallback, returning nothing. -/
theorem C3_counterexample :
    findTimeMatch ("good".toList) = none ∧
    listContainsSub (lowerL ("good stuff".toList)) (lowerL ("good".toList)) = true ∧
    inWindow (parseSecondsL ("0:00".toList)) cHello = true ∧
    getRelevantChunks [cHello] ("good".toList) anaGoodStuff = [] := by
  decide

/-- Witness for C3: the concrete input of the counterexample satisfies the
hypotheses and lands in the lexical fallback. -/
theorem C3_witness :
    (findTimeMatch ("good".toList) = none ∧
     (anaGoodStuff.mainTopics.map (fun t => lowerL t.topic)).find?
        (fun t => listContainsSub (lowerL ("good".toList)) t) = none) ∧
    getRelevantChunks [cHello] ("good".toList) anaGoodStuff
      = lexicalFallback [cHello] (lowerL ("good".toList)) :=
  ⟨by decide, C3_topic_match_one_directional [cHello] _ anaGoodStuff (by decide) (by decide)⟩

/-- C10. A matching concept has no effect on chunk selection: with no
timestamp token and no topic string occurring inside the lowercased
query, the matcher equals the plain lexical fallback even when some
keyConcepts string occurs in the query. The source computes
matchedConcept and never reads it. -/
theorem C10_concept_match_inert (chunks : List Chunk) (query : List Char)
    (analysis : Analysis) (h1 : findTimeMatch query = none)
    (h2 : (analysis.mainTopics.map (fun t => lowerL t.topic)).find?
        (fun t => listContainsSub (lowerL query) t) = none)
    (h3 : ((analysis.keyConcepts.map (fun c => lowerL c.concept)).find?
        (fun c => listContainsSub (lowerL query) c)).isSome = true) :
    getRelevantChunks chunks query analysis = lexicalFallback chunks (lowerL query) := by
  unfold getRelevantChunks
  rw [h1]
  simp only [h2]

/-- Witness for C10: the query banana matches the concept banana and no
topic; the matcher output is exactly the lexical fallback, which keeps the
chunk containing the word banana and drops the other. -/
theorem C10_witness :
    (findTimeMatch ("banana".toList) = none ∧
     (anaBanana.mainTopics.map (fun t => lowerL t.topic)).find?
        (fun t => listContainsSub (lowerL ("banana".toList)) t) = none ∧
     ((anaBanana.keyConcepts.map (fun c => lowerL c.concept)).find?
        (fun c => listContainsSub (lowerL ("banana".toList)) c)).isSome = true) ∧
    getRelevantChunks [cBanana, cCar] ("banana".toList) anaBanana
      = lexicalFallback [cBanana, cCar] (lowerL ("banana".toList)) ∧
    lexicalFallback [cBanana, cCar] (lowerL ("banana".toList)) = [cBanana] :=
  ⟨by decide,
   C10_concept_match_inert [cBanana, cCar] _ anaBanana (by decide) (by decide) (by decide),
   by decide⟩

/-- C2 is a unit slip in the code: the transcript endpoint stores the sum
of the item durations, which parseYouTubeCaption produces in
milliseconds, into metadata.duration, and analyzeTranscript then hands
that value to formatDuration, which reads its argument as seconds. A
single two-second cue yields metadata.duration 2000 and the analysis
prompt describes the video as 33:20 long instead of 0:02. -/
theorem C2_duration_milliseconds :
    (parseYouTubeCaption [nodeTwoSeconds]).map (fun i => i.duration) = [2000] ∧
    (transcriptMetadata ("T".toList) (parseYouTubeCaption [nodeTwoSeconds])).duration = 2000 ∧
    formatDuration
        ((transcriptMetadata ("T".toList) (parseYouTubeCaption [nodeTwoSeconds])).duration)
      = "33:20".toList ∧
    formatDuration 2 = "0:02".toList := by
  decide

/-- C9. When either cache lacks the requested video id, the chat endpoint
answers 400 with the load-first error message; no completion request is
issued and nothing is computed from a transcript. -/
theorem C9_cache_miss_error (st : ServerState) (message videoId : List Char)
    (h : lookupMap st.transcriptCache videoId = none ∨
         lookupMap st.videoAnalysisCache videoId = none) :
    chatHandler st message videoId
      = ChatOutcome.clientError 400
          ("Transcript not found. Please load the video first.".toList) := by
  unfold chatHandler
  rcases h with h | h
  · rw [h]
    cases lookupMap st.videoAnalysisCache videoId <;> rfl
  · rw [h]
    cases lookupMap st.transcriptCache videoId <;> rfl

/-- Witness for C9: the empty server state misses every id, and the chat
handler answers the 400 error for it. -/
theorem C9_witness :
    (lookupMap stEmpty.transcriptCache ("abcdefghijk".toList) = none ∨
     lookupMap stEmpty.videoAnalysisCache ("abcdefghijk".toList) = none) ∧
    chatHandler stEmpty ("hi".toList) ("abcdefghijk".toList)
      = ChatOutcome.clientError 400
          ("Transcript not found. Please load the video first.".toList) :=
  ⟨by decide, C9_cache_miss_error stEmpty _ _ (by decide)⟩

/-- C7 (amended). The context assembler keeps at most three topics and at
most three concepts, an empty topics or concepts selection contributes
the empty string to the template, and the transcript-sections header is
always part of the rendered context, for every chunk list, including the
empty one. -/
theorem C7_context_bounds (query : List Char) (metadata : Metadata) (analysis : Analysis)
    (chunks : List Chunk) (language header : List Char) :
    (relevantTopicsSel query analysis).length ≤ 3 ∧
    (relevantConceptsSel query analysis).length ≤ 3 ∧
    blockWith header [] = [] ∧
    listContainsSub (createChatContext query metadata analysis chunks language)
      (if language == "ms".toList then "Bahagian transkrip yang berkaitan:".toList
       else "Relevant transcript sections:".toList) = true := by
  refine ⟨?_, ?_, ?_, ?_⟩
  · unfold relevantTopicsSel
    rw [List.length_take]
    omega
  · unfold relevantConceptsSel
    rw [List.length_take]
    omega
  · rfl
  · unfold createChatContext
    cases hl : language == "ms".toList
    · simp only [hl, Bool.false_eq_true, if_false, ite_false, List.append_assoc]
      apply contains_append_right
      apply contains_append_right
      apply contains_append_right
      apply contains_append_right
      apply contains_append_right
      apply contains_append_right
      apply contains_append_right
      apply contains_append_right
      apply contains_append_right
      exact contains_self_append _ _
    · simp only [hl, if_true, ite_true, List.append_assoc]
      apply contains_append_right
      apply contains_append_right
      apply contains_append_right
      apply contains_append_right
      apply contains_append_right
      apply contains_append_right
      apply contains_append_right
      apply contains_append_right
      apply contains_append_right
      exact contains_self_append _ _

/-- Counterexample to C7 as stated: with no relevant chunks the
transcript-sections block has no entries, yet the rendered context still
carries the section header line. -/
theorem C7_counterexample :
    joinSep ("\n\n".toList) (([] : List Chunk).map chunkSection) = [] ∧
    listContainsSub (createChatContext ("zzzz".toList) metaT emptyAnalysis [] ("en".toList))
      ("Relevant transcript sections:".toList) = true := by
  decide
